import Mathlib

/-!
Shallow embedding of the asynchronous-completion layer of `topika`
(src/topika/common.py, src/topika/connection.py, src/topika/tools.py).

Futures (operation handles) are identified by natural-number ids; the
tornado event loop is modelled as an explicit state (`LoopState`) holding
each future's settlement, each `FutureStore`'s member collection, the
done-callbacks registered on each future, the callbacks scheduled with
`loop.add_callback` (run on the next loop turn), and the timers armed
with `loop.call_later`.  Done callbacks run at the moment of settlement;
timers are kept with their absolute fire time.  Python exceptions are the
inductive `PyErr`; `set_result` / `set_exception` on an already-settled
future, which raise in Python, are modelled as `Option`-returning
operations (`none` = raise).
-/

/-- A Python exception value, as far as this layer distinguishes them. -/
inductive PyErr where
  /-- `tornado.ioloop.TimeoutError` -/
  | timeoutError
  /-- `topika.exceptions.ChannelClosed` -/
  | channelClosed
  /-- `pika.exceptions.ConnectionClosedByClient` carrying its reply code -/
  | connectionClosedByClient (replyCode : Nat)
  /-- `pika.exceptions.ConnectionClosed` -/
  | connectionClosed (code : Nat)
  /-- `RuntimeError(msg)` -/
  | runtimeError (msg : String)
  /-- `TypeError` (e.g. indexing a `str` with a `str` key) -/
  | typeError
  /-- `AttributeError` (e.g. method access on `None`) -/
  | attributeError
  /-- any other exception object, abstracted by a tag -/
  | generic (n : Nat)
deriving DecidableEq, Repr

/-- A Python value observed through a future's result slot. -/
inductive PyVal where
  /-- an exception object stored as a (non-raised) value, as in
  `closing.set_result(reason)` -/
  | exc (e : PyErr)
  /-- any other object, abstracted by a tag -/
  | obj (n : Nat)
deriving DecidableEq, Repr

/-- How a settled future was settled: `set_result` or `set_exception`. -/
inductive Settlement where
  | result (v : PyVal)
  | error (e : PyErr)
deriving DecidableEq, Repr

/-- A done callback registered on a future with `add_done_callback`. -/
inductive DoneCB where
  /-- `FutureStore._on_future_done` bound to the store with id `sid`:
  removes the future from that store's collection if present. -/
  | onFutureDone (sid : Nat)
  /-- the `on_result` closure of `future_with_timeout`: cancels the armed
  timeout handle `tid` with `loop.remove_timeout`. -/
  | onResult (tid : Nat)
deriving DecidableEq, Repr

/-- A callback scheduled on the loop with `loop.add_callback`; the only
such callback in this layer is `FutureStore._reject_future(future, exc)`. -/
structure PendingCB where
  fid : Nat
  exc : PyErr
deriving DecidableEq, Repr

/-- An armed `loop.call_later` handle: id, absolute fire time, and the
future the `on_timeout` closure targets. -/
structure Timer where
  tid : Nat
  fireTime : Nat
  fid : Nat
deriving DecidableEq, Repr

/-- The event-loop state: settlements, store collections, per-future done
callbacks, scheduled loop callbacks and armed timers. -/
structure LoopState where
  /-- settlement status of each future id (`none` = pending) -/
  settled : Nat → Option Settlement
  /-- each `FutureStore`'s member collection (a Python `set`, modelled as
  a duplicate-free list) -/
  coll : Nat → List Nat
  /-- done callbacks registered on each future, in registration order -/
  cbs : Nat → List DoneCB
  /-- callbacks scheduled with `loop.add_callback`, FIFO -/
  pending : List PendingCB
  /-- armed `call_later` timers -/
  timers : List Timer

/-- The loop state with no futures, no stores populated, nothing scheduled. -/
def emptyLoop : LoopState :=
  { settled := fun _ => none, coll := fun _ => [], cbs := fun _ => [],
    pending := [], timers := [] }

/-- `future.done()` -/
def LoopState.done (st : LoopState) (fid : Nat) : Bool :=
  (st.settled fid).isSome

/-- Run one done callback for future `fid` (invoked when it settles). -/
def runDoneCB (st : LoopState) (fid : Nat) (cb : DoneCB) : LoopState :=
  match cb with
  | .onFutureDone sid =>
      -- FutureStore._on_future_done: `if future in collection: remove`
      if fid ∈ st.coll sid then
        { st with coll := fun i => if i = sid then (st.coll sid).erase fid else st.coll i }
      else st
  | .onResult tid =>
      -- on_result: `loop.remove_timeout(handle)`
      { st with timers := st.timers.filter (fun t => t.tid ≠ tid) }

/-- Run a list of done callbacks for future `fid`, in order. -/
def runDoneCBs (fid : Nat) : LoopState → List DoneCB → LoopState
  | st, [] => st
  | st, cb :: rest => runDoneCBs fid (runDoneCB st fid cb) rest

/-- Write a settlement into `fid`'s slot and run its done callbacks.  This
is the common tail of `set_result` and `set_exception` on a pending
future. -/
def setSettlement (st : LoopState) (fid : Nat) (s : Settlement) : LoopState :=
  runDoneCBs fid
    { st with settled := fun i => if i = fid then some s else st.settled i }
    (st.cbs fid)

/-- `future.set_result(v)`: raises (`none`) if the future is already done. -/
def setResult (st : LoopState) (fid : Nat) (v : PyVal) : Option LoopState :=
  if st.done fid then none else some (setSettlement st fid (.result v))

/-- `future.set_exception(e)`: raises (`none`) if the future is already done. -/
def setException (st : LoopState) (fid : Nat) (e : PyErr) : Option LoopState :=
  if st.done fid then none else some (setSettlement st fid (.error e))

/-- `FutureStore._reject_future(future, exception)`: a guarded settlement
that silently returns when the future is already done. -/
def rejectFuture (st : LoopState) (fid : Nat) (e : PyErr) : LoopState :=
  if st.done fid then st else setSettlement st fid (.error e)

/-- The `on_timeout` closure of `future_with_timeout` (and, identically,
`FutureStore._on_timeout`): settle with `TimeoutError` unless already done. -/
def onTimeout (st : LoopState) (fid : Nat) : LoopState :=
  if st.done fid then st else setSettlement st fid (.error .timeoutError)

/-- Python `set.add` on the duplicate-free list modelling the set. -/
def collInsert (l : List Nat) (x : Nat) : List Nat :=
  if x ∈ l then l else l ++ [x]

/-- A `FutureStore` value: its id plus its whole parent chain
(`__parent_store`).  The mutable member collection lives in
`LoopState.coll`, keyed by the store id. -/
inductive Store where
  | node (sid : Nat) (parent : Option Store)

/-- The store's own id. -/
def Store.sid : Store → Nat
  | .node sid _ => sid

/-- Ids of the store and all stores up its parent chain. -/
def Store.chainIds : Store → List Nat
  | .node sid none => [sid]
  | .node sid (some p) => sid :: p.chainIds

/-- The self-directed half of `FutureStore.add`: insert the future into
the collection of the store with id `sid` and register `_on_future_done`
as a done callback. -/
def storeAddHere (st : LoopState) (sid fid : Nat) : LoopState :=
  { st with
    coll := fun i => if i = sid then collInsert (st.coll sid) fid else st.coll i,
    cbs := fun i => if i = fid then st.cbs fid ++ [.onFutureDone sid] else st.cbs i }

/-- `FutureStore.add(future)`: first forwards the addition up the parent
chain, then adds locally. -/
def storeAdd : LoopState → Store → Nat → LoopState
  | st, .node sid none, fid => storeAddHere st sid fid
  | st, .node sid (some p), fid => storeAddHere (storeAdd st p fid) sid fid

/-- The body of `FutureStore.reject_all`'s loop over the snapshot: remove
the member from the collection and schedule `_reject_future` on the loop. -/
def rejectAllLoop (sid : Nat) (e : PyErr) : LoopState → List Nat → LoopState
  | st, [] => st
  | st, f :: rest =>
      rejectAllLoop sid e
        { st with
          coll := fun i => if i = sid then (st.coll sid).erase f else st.coll i,
          pending := st.pending ++ [⟨f, e⟩] }
        rest

/-- `FutureStore.reject_all(exception)`: iterate over a snapshot of the
collection (`list(self.__collection)`), removing each member and
scheduling `_reject_future` on the loop. -/
def rejectAll (st : LoopState) (s : Store) (e : PyErr) : LoopState :=
  rejectAllLoop s.sid e st (st.coll s.sid)

/-- Run a drained batch of scheduled callbacks FIFO; each is a
`_reject_future` call. -/
def runPendingLoop : LoopState → List PendingCB → LoopState
  | st, [] => st
  | st, pe :: rest => runPendingLoop (rejectFuture st pe.fid pe.exc) rest

/-- Run one loop turn: drain the scheduled callbacks and run them FIFO. -/
def runPending (st : LoopState) : LoopState :=
  runPendingLoop { st with pending := [] } st.pending

/-- `future_with_timeout(loop, timeout)` on a fresh future `fid`: if
`timeout` is truthy (`≠ 0`, covering Python's `None`/`0`), arm a
`call_later` timer `tid` at `now + timeout` and register the `on_result`
cancellation done callback. -/
def futureWithTimeout (st : LoopState) (now timeout fid tid : Nat) : LoopState :=
  if timeout ≠ 0 then
    { st with
      timers := st.timers ++ [⟨tid, now + timeout, fid⟩],
      cbs := fun i => if i = fid then st.cbs fid ++ [.onResult tid] else st.cbs i }
  else st

/-- `FutureStore.create_future(timeout)`: build the future with
`future_with_timeout`, `add` it to this store (which forwards up the
parent chain), and — redundantly — `add` it to the immediate parent again. -/
def createFuture (st : LoopState) (s : Store) (now timeout fid tid : Nat) : LoopState :=
  let st1 := futureWithTimeout st now timeout fid tid
  let st2 := storeAdd st1 s fid
  match s with
  | .node _ (some p) => storeAdd st2 p fid
  | .node _ none => st2

/-- `FutureStore.create_child()`: a new store whose parent is this store. -/
def createChild (s : Store) (newSid : Nat) : Store :=
  .node newSid (some s)

/-- A timer fires: consume the `call_later` handle and run `on_timeout`.
If the handle was already removed, nothing happens. -/
def fireTimer (st : LoopState) (tid : Nat) : LoopState :=
  match st.timers.find? (fun t => t.tid = tid) with
  | none => st
  | some t =>
      let st' := { st with timers := st.timers.filter (fun u => u.tid ≠ tid) }
      onTimeout st' t.fid

/-- Timer ids due at or before time `u`. -/
def timersDue (st : LoopState) (u : Nat) : List Nat :=
  (st.timers.filter (fun t => t.fireTime ≤ u)).map (fun t => t.tid)

/-- Fire a batch of timers in order. -/
def fireTimers : LoopState → List Nat → LoopState
  | st, [] => st
  | st, tid :: rest => fireTimers (fireTimer st tid) rest

/-- Advance the clock to time `u`: fire every timer due by `u`. -/
def advanceTo (st : LoopState) (u : Nat) : LoopState :=
  fireTimers st (timersDue st u)

/-!
## Connection layer (src/topika/connection.py)

The transport handed back by the protocol engine is abstracted by a
numeric id; capability results by `PyVal`.  Calls into the external
protocol engine are counted in `engineCalls` so that "never contacts the
engine" is expressible.
-/

/-- `pika.spec.REPLY_SUCCESS` -/
def REPLY_SUCCESS : Nat := 200

/-- The test on line 291: the reason is a `ConnectionClosedByClient` whose
`reply_code` equals `REPLY_SUCCESS`. -/
def isClientSuccess : PyErr → Bool
  | .connectionClosedByClient c => c = REPLY_SUCCESS
  | _ => false

/-- Modelled from the spec: the `Channel` proxy class lives in
`src/topika/channel.py`, which is not among the provided sources.  Spec
4.3/3: a ChannelLifecycle "wraps the new channel id and a registry child"
and holds "its own PendingOperationRegistry (child of the connection's)"
as `_futures`. -/
structure Channel where
  channelNumber : Nat
  futures : Store

/-- Association-list lookup for the channel / cookie maps. -/
def mapLookup (m : List (Nat × Channel)) (k : Nat) : Option Channel :=
  match m with
  | [] => none
  | (k', v) :: rest => if k' = k then some v else mapLookup rest k

/-- `dict.pop(k)`: `none` models the `KeyError` on a missing key. -/
def mapPop (m : List (Nat × Channel)) (k : Nat) :
    Option (Channel × List (Nat × Channel)) :=
  match mapLookup m k with
  | none => none
  | some v => some (v, m.filter (fun p => p.1 ≠ k))

/-- `dict.__setitem__` -/
def mapInsert (m : List (Nat × Channel)) (k : Nat) (v : Channel) :
    List (Nat × Channel) :=
  (k, v) :: m.filter (fun p => p.1 ≠ k)

/-- The mutable fields of a `Connection` object. -/
structure ConnState where
  /-- `self._connection`: the transport id, `none` when absent -/
  connection : Option Nat
  /-- `self.__closing`: the terminal future's id, `none` until lazily created -/
  closing : Option Nat
  /-- `self._channels` -/
  channels : List (Nat × Channel)
  /-- cookie bindings installed with `impl_channel._set_cookie(channel)`,
  keyed by the raw channel's number -/
  cookies : List (Nat × Channel)
  /-- `self.future_store` -/
  root : Store
  /-- trace: number of calls made into the external protocol engine -/
  engineCalls : Nat

/-- A connection object together with the loop state it lives on. -/
structure ConnWorld where
  conn : ConnState
  loop : LoopState

/-- `self.__closing and self.__closing.done()` -/
def closingDone (w : ConnWorld) : Bool :=
  match w.conn.closing with
  | some cl => w.loop.done cl
  | none => false

/-- `Connection.is_closed`: true when the transport reference is absent,
otherwise whether the terminal future is done.  (The `_closing` property
lazily creates the terminal future; a freshly created future is not done,
so the lazy creation is dropped from this pure reading.) -/
def isClosed (w : ConnWorld) : Bool :=
  match w.conn.connection with
  | none => true
  | some _ =>
      match w.conn.closing with
      | none => false
      | some cl => w.loop.done cl

/-- `Connection.ensure_connected` -/
def ensureConnected (w : ConnWorld) : Except PyErr Unit :=
  if isClosed w then .error (.runtimeError "Connection closed") else .ok ()

/-- `Connection._on_connection_lost(future, connection, reason)` (also the
body of `_on_connection_refused`, which delegates to it).  `cf` is the id
of the `connect_future` bound by `partial`.  `none` models the uncaught
`AttributeError` raised when `self.__closing` is `None` and the
client-success branch calls `set_result` on it. -/
def onConnectionLost (w : ConnWorld) (cf : Nat) (reason : PyErr) : Option ConnWorld :=
  if closingDone w then some w
  else if isClientSuccess reason then
    match w.conn.closing with
    | some cl => some { w with loop := setSettlement w.loop cl (.result (.exc reason)) }
    | none => none
  else
    let lp := rejectAll w.loop w.conn.root reason
    let lp := if lp.done cf then lp else setSettlement lp cf (.error reason)
    some { w with loop := lp }

/-- `Connection._channel_cleanup(channel)` (and, identically,
`_on_channel_cancel`): pop the entry keyed by the channel's number and
reject the channel's registry with `ChannelClosed`.  `none` models the
`KeyError` on a missing entry. -/
def channelCleanup (w : ConnWorld) (chNum : Nat) : Option ConnWorld :=
  match mapPop w.conn.channels chNum with
  | none => none
  | some (ch, rest) =>
      some { conn := { w.conn with channels := rest },
             loop := rejectAll w.loop ch.futures .channelClosed }

/-- `Connection.channel(...)` in the case where the engine grants the
channel open: `chNum` is the number of the raw channel the engine hands
back (settling `open_future`), `fidOpen` a fresh future id for the scoped
`open_future`, `childSid` a fresh store id for the registry child. -/
def channelOp (w : ConnWorld) (chNum fidOpen childSid : Nat) :
    ConnWorld × Except PyErr Channel :=
  match ensureConnected w with
  | .error e => (w, .error e)
  | .ok _ =>
      -- with self.future_store.pending_future() as open_future:
      let lp := createFuture w.loop w.conn.root 0 0 fidOpen 0
      -- self._connection.channel(...): one call into the engine; the
      -- engine's on_open callback is open_future.set_result(impl_channel)
      let engine := w.conn.engineCalls + 1
      let lp := (setResult lp fidOpen (.obj chNum)).getD lp
      -- pending_future cleanup on block exit: remove if still present
      let rootSid := w.conn.root.sid
      let lp :=
        if fidOpen ∈ lp.coll rootSid then
          { lp with coll := fun i =>
              if i = rootSid then (lp.coll rootSid).erase fidOpen else lp.coll i }
        else lp
      -- channel = self.CHANNEL_CLASS(impl_channel, self, future_store.create_child())
      let ch : Channel := ⟨chNum, createChild w.conn.root childSid⟩
      -- Modelled from the spec: the Channel constructor "registers it in
      -- the channel map" (spec 4.3) keyed by its channel number
      let channels := mapInsert w.conn.channels chNum ch
      -- impl_channel._set_cookie(channel)
      let cookies := mapInsert w.conn.cookies chNum ch
      ({ conn := { w.conn with
                     channels := channels, cookies := cookies,
                     engineCalls := engine },
         loop := lp },
       .ok ch)

/-- `Connection.connect()`.  `cfid` is a fresh id for `connect_future`,
`tid` the transport the engine would hand back, and `outcome` selects
which engine callback fires first: `.ok caps` for open-success (the
on-open callback settles `connect_future` with the transport's
capabilities) or `.error reason` for open-error / close-during-open (the
engine invokes the loss handler).  The second component is the call's
result; `none` means `connect()` suspends forever on `connect_future`. -/
def connectOp (w : ConnWorld) (cfid tid : Nat) (outcome : Except PyErr PyVal) :
    ConnWorld × Option (Except PyErr PyVal) :=
  if closingDone w then (w, some (.error (.runtimeError "Invalid connection state")))
  else
    -- locked section: self._connection = None, then open the transport
    let c1 := { w.conn with connection := none, engineCalls := w.conn.engineCalls + 1 }
    let w1 : ConnWorld := { conn := c1, loop := w.loop }
    match outcome with
    | .ok caps =>
        let lp := (setResult w1.loop cfid caps).getD w1.loop
        ({ conn := { c1 with connection := some tid }, loop := lp }, some (.ok caps))
    | .error reason =>
        match onConnectionLost w1 cfid reason with
        | some w2 =>
            -- result = yield connect_future
            match w2.loop.settled cfid with
            | some (.error e) => (w2, some (.error e))
            | some (.result v) =>
                ({ w2 with conn := { w2.conn with connection := some tid } }, some (.ok v))
            | none => (w2, none)
        | none => (w1, some (.error .attributeError))

/-- `Connection.__init__`: no transport, no terminal future, no channels,
a fresh root `FutureStore`. -/
def initConnection (rootSid : Nat) : ConnWorld :=
  { conn := { connection := none, closing := none, channels := [], cookies := [],
              root := .node rootSid none, engineCalls := 0 },
    loop := emptyLoop }

/-!
## Callback adapter (src/topika/common.py, `ensure_coroutine` /
`_CallbackWrapper`)

A Python callable is either a plain function or a coroutine function; its
behaviour is the returned-or-raised outcome as a function of the first
argument and the remaining arguments, plus — for a coroutine — the number
of genuine suspensions before its future resolves.  Objects are abstracted
by numeric ids.
-/

/-- A handler passed to the adapter: plain function, or coroutine function
with `steps` suspensions before its result is available. -/
inductive PyFunc where
  | plain (f : Nat → List Nat → Except PyErr Nat)
  | coroutineFn (steps : Nat) (f : Nat → List Nat → Except PyErr Nat)

/-- The eventual outcome of applying the handler. -/
def PyFunc.apply : PyFunc → Nat → List Nat → Except PyErr Nat
  | .plain f, a, rest => f a rest
  | .coroutineFn _ f, a, rest => f a rest

/-- Suspensions before the handler's outcome is available (a plain
function returns without suspending). -/
def PyFunc.steps : PyFunc → Nat
  | .plain _ => 0
  | .coroutineFn s _ => s

/-- `ensure_coroutine(func_or_coro)`: a coroutine function is returned
as-is; a plain function is wrapped in a coroutine that calls it and raises
`Return(result)` — resolving with no suspension. -/
def ensure_coroutine : PyFunc → PyFunc
  | .plain f => .coroutineFn 0 f
  | .coroutineFn s f => .coroutineFn s f

/-- The `_CallbackWrapper` object: the stored proxy and the stored
callback, the latter already passed through `ensure_coroutine` by
`__init__`. -/
structure CallbackWrapper where
  proxy : Nat
  callback : PyFunc

/-- `_CallbackWrapper.__init__(source_proxy, callback)` -/
def CallbackWrapper.make (sourceProxy : Nat) (callback : PyFunc) : CallbackWrapper :=
  ⟨sourceProxy, ensure_coroutine callback⟩

/-- `_CallbackWrapper.__call__(unused_source, *args)`: yield
`self._callback(self._proxy, *args)` and re-raise its result.  Returns the
number of suspensions taken together with the outcome delivered to the
caller. -/
def CallbackWrapper.call (w : CallbackWrapper) (_unusedSource : Nat)
    (args : List Nat) : Nat × Except PyErr Nat :=
  (w.callback.steps, w.callback.apply w.proxy args)

/-!
## Module-level `connect()` (src/topika/connection.py lines 448-474):
merging the URL against the discrete keyword fields.

`urlparse` results are modelled by `UrlParts`; absent components are
`none`, and Python's `x or default` falls back on falsy values (`None`,
`''`, `0`).  `url.query` is a `str`, so `key not in url.query` is a
substring test and `url.query[key]` — indexing a `str` with a `str` —
raises `TypeError`.
-/

/-- The components `urlparse` exposes that `connect()` reads. -/
structure UrlParts where
  hostname : Option String
  port : Option Nat
  username : Option String
  password : Option String
  path : String
  query : String

/-- The parameters handed to the `Connection` constructor. -/
structure ConnectParams where
  host : String
  port : Nat
  login : String
  password : String
  virtualhost : String
  ssl_options : List (String × String)
deriving DecidableEq, Repr

/-- Python `a or b` for an optional string (`None` and `''` are falsy). -/
def pyOrStr (o : Option String) (dflt : String) : String :=
  match o with
  | some s => if s = "" then dflt else s
  | none => dflt

/-- Python `a or b` for an optional int (`None` and `0` are falsy). -/
def pyOrNat (o : Option Nat) (dflt : Nat) : Nat :=
  match o with
  | some n => if n = 0 then dflt else n
  | none => dflt

/-- `pat.isPrefixOf`-at-some-position: does `pat` occur inside the list? -/
def subListAt (pat : List Char) : List Char → Bool
  | [] => pat.isEmpty
  | c :: rest => pat.isPrefixOf (c :: rest) || subListAt pat rest

/-- Python `pat in s` on strings: substring containment. -/
def strContains (s pat : String) : Bool :=
  subListAt pat.data s.data

/-- The fixed allow-list `ssl_keys` of `connect()`. -/
def sslKeys : List String :=
  ["ca_certs", "cert_reqs", "certfile", "keyfile", "ssl_version"]

/-- The `for key in ssl_keys` loop: a key not contained in the query
string is skipped; for a contained key the body runs
`ssl_options[key] = url.query[key]`, and `url.query[key]` — a `str`
indexed by a `str` — raises `TypeError`. -/
def sslLoop (query : String) (opts : List (String × String)) :
    List String → Except PyErr (List (String × String))
  | [] => .ok opts
  | k :: ks =>
      if strContains query k then .error .typeError
      else sslLoop query opts ks

/-- The parameter-merging prefix of module-level `connect(...)`: with a
URL, each falsy-guarded component overrides the discrete field and the
SSL-key loop runs over the query string; without a URL the discrete
fields pass through unchanged. -/
def mergeConnectParams (url : Option UrlParts) (host : String) (port : Nat)
    (login password virtualhost : String)
    (ssl_options : List (String × String)) : Except PyErr ConnectParams :=
  match url with
  | none => .ok ⟨host, port, login, password, virtualhost, ssl_options⟩
  | some u =>
      let host := pyOrStr u.hostname host
      let port := pyOrNat u.port port
      let login := pyOrStr u.username login
      let password := pyOrStr u.password password
      let virtualhost := if u.path.length > 1 then u.path.drop 1 else virtualhost
      match sslLoop u.query ssl_options sslKeys with
      | .error e => .error e
      | .ok opts => .ok ⟨host, port, login, password, virtualhost, opts⟩

/-!
## Concrete instances used by the witness theorems
-/

/-- The store itself and every store up its parent chain, as values. -/
def Store.chain : Store → List Store
  | .node sid none => [.node sid none]
  | .node sid (some p) => .node sid (some p) :: p.chain

/-- Concrete registry and loop state to witness C1: store 0 holds futures
1 (pending) and 2 (already settled). -/
def demoStoreR : Store := .node 0 none

/-- Concrete loop state for the C1 witness. -/
def demoSt1 : LoopState :=
  { settled := fun i => if i = 2 then some (.result (.obj 5)) else none,
    coll := fun i => if i = 0 then [1, 2] else [],
    cbs := fun i => if i = 1 ∨ i = 2 then [.onFutureDone 0] else [],
    pending := [], timers := [] }

/-- Loop state for the C6 witness: future 0 settled, future 1 pending. -/
def demoSt2 : LoopState :=
  { emptyLoop with settled := fun i => if i = 0 then some (.result (.obj 7)) else none }

/-- A concrete plain handler for the C5 witness. -/
def demoHandler : PyFunc := .plain (fun q args => .ok (q + args.length))

/-- Concrete two-level chain for the C2 witness: store 1 is a child of
store 0. -/
def demoRoot : Store := .node 0 none

/-- The child registry of `demoRoot`, as `create_child` builds it. -/
def demoChild : Store := createChild demoRoot 1

/-- The connection root registry for the C3 witness worlds. -/
def demoConnStore : Store := .node 0 none

/-- C3 witness world with the terminal handle (future 7) already settled. -/
def demoW3a : ConnWorld :=
  { conn := { connection := some 1, closing := some 7, channels := [], cookies := [],
              root := demoConnStore, engineCalls := 0 },
    loop := { emptyLoop with
              settled := fun i => if i = 7 then some (.result (.obj 0)) else none } }

/-- C3 witness world with the terminal handle (future 7) pending and the
registry holding futures 7 and 8. -/
def demoW3 : ConnWorld :=
  { conn := { connection := some 1, closing := some 7, channels := [], cookies := [],
              root := demoConnStore, engineCalls := 0 },
    loop := { emptyLoop with
              coll := fun i => if i = 0 then [7, 8] else [],
              cbs := fun i => if i = 7 ∨ i = 8 then [.onFutureDone 0] else [] } }

/-- An open connection world for the C4 witness: transport present, no
terminal future yet, empty channel map. -/
def demoW4 : ConnWorld :=
  { conn := { connection := some 1, closing := none, channels := [], cookies := [],
              root := demoConnStore, engineCalls := 0 },
    loop := emptyLoop }

/-- A world whose fail-fast check passes (terminal future pending) for the
C9 witness. -/
def demoW9 : ConnWorld :=
  { conn := { connection := none, closing := none, channels := [], cookies := [],
              root := demoConnStore, engineCalls := 0 },
    loop := emptyLoop }

/-- A URL carrying an SSL-related query parameter (`server_hostname`)
outside the fixed `ssl_keys` allow-list. -/
def demoUrl : UrlParts :=
  { hostname := some "10.0.0.1", port := none, username := some "user",
    password := some "secret", path := "/vh", query := "server_hostname=broker" }

/-!
## Frame and characterization lemmas for the loop-state operations
-/

/-- `∀ i, (st.coll i).Nodup`: every store collection models a Python set. -/
def NodupColl (st : LoopState) : Prop :=
  ∀ i, (st.coll i).Nodup

theorem runDoneCB_settled (st : LoopState) (f : Nat) (cb : DoneCB) :
    (runDoneCB st f cb).settled = st.settled := by
  cases cb with
  | onFutureDone sid => simp only [runDoneCB]; split <;> rfl
  | onResult tid => rfl

theorem runDoneCB_cbs (st : LoopState) (f : Nat) (cb : DoneCB) :
    (runDoneCB st f cb).cbs = st.cbs := by
  cases cb with
  | onFutureDone sid => simp only [runDoneCB]; split <;> rfl
  | onResult tid => rfl

theorem runDoneCB_pending (st : LoopState) (f : Nat) (cb : DoneCB) :
    (runDoneCB st f cb).pending = st.pending := by
  cases cb with
  | onFutureDone sid => simp only [runDoneCB]; split <;> rfl
  | onResult tid => rfl

theorem runDoneCB_coll_notmem (st : LoopState) (f x a : Nat) (cb : DoneCB)
    (h : x ∉ st.coll a) : x ∉ (runDoneCB st f cb).coll a := by
  cases cb with
  | onFutureDone sid =>
      simp only [runDoneCB]
      split
      · by_cases ha : a = sid
        · subst ha
          simp only [if_pos rfl]
          exact fun hx => h ((List.erase_sublist f (st.coll a)).subset hx)
        · simpa [ha] using h
      · exact h
  | onResult tid => exact h

theorem runDoneCB_coll_empty (st : LoopState) (f a : Nat) (cb : DoneCB)
    (h : st.coll a = []) : (runDoneCB st f cb).coll a = [] := by
  cases cb with
  | onFutureDone sid =>
      simp only [runDoneCB]
      split
      · by_cases ha : a = sid
        · subst ha; simp [h]
        · simpa [ha] using h
      · exact h
  | onResult tid => exact h

theorem runDoneCB_nodup (st : LoopState) (f : Nat) (cb : DoneCB)
    (h : NodupColl st) : NodupColl (runDoneCB st f cb) := by
  cases cb with
  | onFutureDone sid =>
      simp only [runDoneCB]
      split
      · intro i
        by_cases hi : i = sid
        · subst hi; simpa using (h i).erase f
        · simpa [hi] using h i
      · exact h
  | onResult tid => exact h

theorem runDoneCB_kill (st : LoopState) (f a : Nat)
    (hnd : (st.coll a).Nodup) : f ∉ (runDoneCB st f (.onFutureDone a)).coll a := by
  simp only [runDoneCB]
  split
  · simp only [if_pos rfl]
    intro hx
    exact absurd (hnd.mem_erase_iff.mp hx).1 (by simp)
  · assumption

theorem runDoneCBs_settled (f : Nat) :
    ∀ (l : List DoneCB) (st : LoopState), (runDoneCBs f st l).settled = st.settled
  | [], _ => rfl
  | cb :: rest, st => by
      rw [runDoneCBs, runDoneCBs_settled f rest, runDoneCB_settled]

theorem runDoneCBs_cbs (f : Nat) :
    ∀ (l : List DoneCB) (st : LoopState), (runDoneCBs f st l).cbs = st.cbs
  | [], _ => rfl
  | cb :: rest, st => by
      rw [runDoneCBs, runDoneCBs_cbs f rest, runDoneCB_cbs]

theorem runDoneCBs_pending (f : Nat) :
    ∀ (l : List DoneCB) (st : LoopState), (runDoneCBs f st l).pending = st.pending
  | [], _ => rfl
  | cb :: rest, st => by
      rw [runDoneCBs, runDoneCBs_pending f rest, runDoneCB_pending]

theorem runDoneCBs_coll_notmem (f x a : Nat) :
    ∀ (l : List DoneCB) (st : LoopState), x ∉ st.coll a →
      x ∉ (runDoneCBs f st l).coll a
  | [], _, h => h
  | cb :: rest, st, h =>
      runDoneCBs_coll_notmem f x a rest _ (runDoneCB_coll_notmem st f x a cb h)

theorem runDoneCBs_coll_empty (f a : Nat) :
    ∀ (l : List DoneCB) (st : LoopState), st.coll a = [] →
      (runDoneCBs f st l).coll a = []
  | [], _, h => h
  | cb :: rest, st, h =>
      runDoneCBs_coll_empty f a rest _ (runDoneCB_coll_empty st f a cb h)

theorem runDoneCBs_nodup (f : Nat) :
    ∀ (l : List DoneCB) (st : LoopState), NodupColl st →
      NodupColl (runDoneCBs f st l)
  | [], _, h => h
  | cb :: rest, st, h =>
      runDoneCBs_nodup f rest _ (runDoneCB_nodup st f cb h)

theorem runDoneCBs_kill (f a : Nat) :
    ∀ (l : List DoneCB) (st : LoopState), NodupColl st →
      DoneCB.onFutureDone a ∈ l → f ∉ (runDoneCBs f st l).coll a
  | cb :: rest, st, hnd, hmem => by
      rw [runDoneCBs]
      rcases List.mem_cons.mp hmem with heq | hrest
      · subst heq
        exact runDoneCBs_coll_notmem f f a rest _ (runDoneCB_kill st f a (hnd a))
      · exact runDoneCBs_kill f a rest _ (runDoneCB_nodup st f cb hnd) hrest

theorem setSettlement_settled (st : LoopState) (f : Nat) (s : Settlement) (i : Nat) :
    (setSettlement st f s).settled i = if i = f then some s else st.settled i := by
  simp only [setSettlement, runDoneCBs_settled]

theorem setSettlement_settled_self (st : LoopState) (f : Nat) (s : Settlement) :
    (setSettlement st f s).settled f = some s := by
  simp [setSettlement_settled]

theorem setSettlement_cbs (st : LoopState) (f : Nat) (s : Settlement) :
    (setSettlement st f s).cbs = st.cbs := by
  simp only [setSettlement, runDoneCBs_cbs]

theorem setSettlement_pending (st : LoopState) (f : Nat) (s : Settlement) :
    (setSettlement st f s).pending = st.pending := by
  simp only [setSettlement, runDoneCBs_pending]

theorem setSettlement_coll_empty (st : LoopState) (f a : Nat) (s : Settlement)
    (h : st.coll a = []) : (setSettlement st f s).coll a = [] :=
  runDoneCBs_coll_empty f a (st.cbs f) _ h

theorem setSettlement_nodup (st : LoopState) (f : Nat) (s : Settlement)
    (h : NodupColl st) : NodupColl (setSettlement st f s) :=
  runDoneCBs_nodup f (st.cbs f) _ h

theorem setSettlement_kill (st : LoopState) (f a : Nat) (s : Settlement)
    (hnd : NodupColl st) (hmem : DoneCB.onFutureDone a ∈ st.cbs f) :
    f ∉ (setSettlement st f s).coll a :=
  runDoneCBs_kill f a (st.cbs f) _ hnd hmem

theorem rejectFuture_of_done (st : LoopState) (f : Nat) (e : PyErr) (s : Settlement)
    (h : st.settled f = some s) : rejectFuture st f e = st := by
  simp [rejectFuture, LoopState.done, h]

theorem rejectFuture_of_pending (st : LoopState) (f : Nat) (e : PyErr)
    (h : st.settled f = none) : rejectFuture st f e = setSettlement st f (.error e) := by
  simp [rejectFuture, LoopState.done, h]

theorem onTimeout_of_done (st : LoopState) (f : Nat) (s : Settlement)
    (h : st.settled f = some s) : onTimeout st f = st := by
  simp [onTimeout, LoopState.done, h]

theorem onTimeout_of_pending (st : LoopState) (f : Nat)
    (h : st.settled f = none) :
    onTimeout st f = setSettlement st f (.error .timeoutError) := by
  simp [onTimeout, LoopState.done, h]

theorem rejectFuture_settled_stable (st : LoopState) (f g : Nat) (e : PyErr)
    (s : Settlement) (h : st.settled f = some s) :
    (rejectFuture st g e).settled f = some s := by
  cases hg : st.settled g with
  | some s' => rw [rejectFuture_of_done st g e s' hg]; exact h
  | none =>
      rw [rejectFuture_of_pending st g e hg, setSettlement_settled]
      split
      · next hf => rw [hf] at h; rw [h] at hg; cases hg
      · exact h

theorem rejectFuture_settled_none_other (st : LoopState) (f g : Nat) (e : PyErr)
    (hne : f ≠ g) (h : st.settled f = none) :
    (rejectFuture st g e).settled f = none := by
  cases hg : st.settled g with
  | some s' => rw [rejectFuture_of_done st g e s' hg]; exact h
  | none =>
      rw [rejectFuture_of_pending st g e hg, setSettlement_settled, if_neg hne]
      exact h

theorem rejectFuture_coll_empty (st : LoopState) (f a : Nat) (e : PyErr)
    (h : st.coll a = []) : (rejectFuture st f e).coll a = [] := by
  cases hf : st.settled f with
  | some s' => rw [rejectFuture_of_done st f e s' hf]; exact h
  | none => rw [rejectFuture_of_pending st f e hf]; exact setSettlement_coll_empty st f a _ h

theorem runPendingLoop_settled_stable (f : Nat) (s : Settlement) :
    ∀ (pcs : List PendingCB) (st : LoopState), st.settled f = some s →
      (runPendingLoop st pcs).settled f = some s
  | [], _, h => h
  | pe :: rest, st, h =>
      runPendingLoop_settled_stable f s rest _
        (rejectFuture_settled_stable st f pe.fid pe.exc s h)

theorem runPendingLoop_settles (f : Nat) (e : PyErr) :
    ∀ (l : List Nat) (st : LoopState), f ∈ l → st.settled f = none →
      (runPendingLoop st (l.map (fun x => ⟨x, e⟩))).settled f = some (.error e)
  | a :: rest, st, hmem, h => by
      rw [List.map_cons, runPendingLoop]
      by_cases ha : a = f
      · subst ha
        have h1 : (rejectFuture st a e).settled a = some (.error e) := by
          rw [rejectFuture_of_pending st a e h]; exact setSettlement_settled_self ..
        exact runPendingLoop_settled_stable a _ _ _ h1
      · have hmem' : f ∈ rest := by
          rcases List.mem_cons.mp hmem with h' | h'
          · exact absurd h'.symm ha
          · exact h'
        exact runPendingLoop_settles f e rest _ hmem'
          (rejectFuture_settled_none_other st f a e (fun hh => ha hh.symm) h)

theorem runPendingLoop_coll_empty (a : Nat) :
    ∀ (pcs : List PendingCB) (st : LoopState), st.coll a = [] →
      (runPendingLoop st pcs).coll a = []
  | [], _, h => h
  | pe :: rest, st, h =>
      runPendingLoop_coll_empty a rest _ (rejectFuture_coll_empty st pe.fid a pe.exc h)

theorem rejectAllLoop_settled (sid : Nat) (e : PyErr) :
    ∀ (l : List Nat) (st : LoopState), (rejectAllLoop sid e st l).settled = st.settled
  | [], _ => rfl
  | f :: rest, st => by rw [rejectAllLoop, rejectAllLoop_settled sid e rest]

theorem rejectAllLoop_cbs (sid : Nat) (e : PyErr) :
    ∀ (l : List Nat) (st : LoopState), (rejectAllLoop sid e st l).cbs = st.cbs
  | [], _ => rfl
  | f :: rest, st => by rw [rejectAllLoop, rejectAllLoop_cbs sid e rest]

theorem rejectAllLoop_timers (sid : Nat) (e : PyErr) :
    ∀ (l : List Nat) (st : LoopState), (rejectAllLoop sid e st l).timers = st.timers
  | [], _ => rfl
  | f :: rest, st => by rw [rejectAllLoop, rejectAllLoop_timers sid e rest]

theorem rejectAllLoop_pending (sid : Nat) (e : PyErr) :
    ∀ (l : List Nat) (st : LoopState),
      (rejectAllLoop sid e st l).pending = st.pending ++ l.map (fun f => ⟨f, e⟩)
  | [], st => by simp [rejectAllLoop]
  | f :: rest, st => by
      rw [rejectAllLoop, rejectAllLoop_pending sid e rest]
      simp

theorem rejectAllLoop_coll_other (sid : Nat) (e : PyErr) (i : Nat) (hne : i ≠ sid) :
    ∀ (l : List Nat) (st : LoopState), (rejectAllLoop sid e st l).coll i = st.coll i
  | [], _ => rfl
  | f :: rest, st => by
      rw [rejectAllLoop, rejectAllLoop_coll_other sid e i hne rest]
      simp [hne]

theorem rejectAllLoop_coll_drain (sid : Nat) (e : PyErr) :
    ∀ (l : List Nat) (st : LoopState), st.coll sid = l →
      (rejectAllLoop sid e st l).coll sid = []
  | [], st, h => h
  | f :: rest, st, h => by
      rw [rejectAllLoop]
      refine rejectAllLoop_coll_drain sid e rest _ ?_
      simp [h]

theorem rejectAll_settled (st : LoopState) (s : Store) (e : PyErr) :
    (rejectAll st s e).settled = st.settled :=
  rejectAllLoop_settled s.sid e _ st

theorem rejectAll_coll_self (st : LoopState) (s : Store) (e : PyErr) :
    (rejectAll st s e).coll s.sid = [] :=
  rejectAllLoop_coll_drain s.sid e _ st rfl

theorem rejectAll_pending (st : LoopState) (s : Store) (e : PyErr) :
    (rejectAll st s e).pending = st.pending ++ (st.coll s.sid).map (fun f => ⟨f, e⟩) :=
  rejectAllLoop_pending s.sid e _ st

theorem collInsert_mem_self (l : List Nat) (x : Nat) : x ∈ collInsert l x := by
  unfold collInsert
  split
  · assumption
  · simp

theorem collInsert_mem_mono (l : List Nat) (x y : Nat) (h : x ∈ l) :
    x ∈ collInsert l y := by
  unfold collInsert
  split
  · exact h
  · simp [h]

theorem collInsert_nodup (l : List Nat) (x : Nat) (h : l.Nodup) :
    (collInsert l x).Nodup := by
  unfold collInsert
  split
  · exact h
  · next hx => simp [List.nodup_append, h, hx]

theorem storeAddHere_settled (st : LoopState) (sid f : Nat) :
    (storeAddHere st sid f).settled = st.settled := rfl

theorem storeAddHere_pending (st : LoopState) (sid f : Nat) :
    (storeAddHere st sid f).pending = st.pending := rfl

theorem storeAddHere_timers (st : LoopState) (sid f : Nat) :
    (storeAddHere st sid f).timers = st.timers := rfl

theorem storeAddHere_coll_mem_self (st : LoopState) (sid f : Nat) :
    f ∈ (storeAddHere st sid f).coll sid := by
  simp only [storeAddHere, if_pos rfl]
  exact collInsert_mem_self ..

theorem storeAddHere_coll_mem_mono (st : LoopState) (sid f x a : Nat)
    (h : x ∈ st.coll a) : x ∈ (storeAddHere st sid f).coll a := by
  simp only [storeAddHere]
  split
  · next ha => subst ha; exact collInsert_mem_mono _ x f h
  · exact h

theorem storeAddHere_cbs_mem_self (st : LoopState) (sid f : Nat) :
    DoneCB.onFutureDone sid ∈ (storeAddHere st sid f).cbs f := by
  simp [storeAddHere]

theorem storeAddHere_cbs_mono (st : LoopState) (sid f g : Nat) (c : DoneCB)
    (h : c ∈ st.cbs g) : c ∈ (storeAddHere st sid f).cbs g := by
  simp only [storeAddHere]
  split
  · next hg => subst hg; exact List.mem_append_left _ h
  · exact h

theorem storeAddHere_nodup (st : LoopState) (sid f : Nat) (h : NodupColl st) :
    NodupColl (storeAddHere st sid f) := by
  intro i
  simp only [storeAddHere]
  split
  · exact collInsert_nodup _ f (h sid)
  · exact h i

theorem storeAdd_settled (f : Nat) :
    ∀ (s : Store) (st : LoopState), (storeAdd st s f).settled = st.settled
  | .node sid none, st => rfl
  | .node sid (some p), st => by
      rw [storeAdd, storeAddHere_settled, storeAdd_settled f p]

theorem storeAdd_pending (f : Nat) :
    ∀ (s : Store) (st : LoopState), (storeAdd st s f).pending = st.pending
  | .node sid none, st => rfl
  | .node sid (some p), st => by
      rw [storeAdd, storeAddHere_pending, storeAdd_pending f p]

theorem storeAdd_timers (f : Nat) :
    ∀ (s : Store) (st : LoopState), (storeAdd st s f).timers = st.timers
  | .node sid none, st => rfl
  | .node sid (some p), st => by
      rw [storeAdd, storeAddHere_timers, storeAdd_timers f p]

theorem storeAdd_coll_mono (f x a : Nat) :
    ∀ (s : Store) (st : LoopState), x ∈ st.coll a → x ∈ (storeAdd st s f).coll a
  | .node sid none, st, h => storeAddHere_coll_mem_mono st sid f x a h
  | .node sid (some p), st, h =>
      storeAddHere_coll_mem_mono _ sid f x a (storeAdd_coll_mono f x a p st h)

theorem storeAdd_coll_mem (f : Nat) :
    ∀ (s : Store) (st : LoopState), ∀ a ∈ s.chainIds, f ∈ (storeAdd st s f).coll a
  | .node sid none, st, a, ha => by
      rw [Store.chainIds] at ha
      simp only [List.mem_singleton] at ha
      subst ha
      exact storeAddHere_coll_mem_self st a f
  | .node sid (some p), st, a, ha => by
      rw [Store.chainIds] at ha
      rcases List.mem_cons.mp ha with h' | h'
      · subst h'
        exact storeAddHere_coll_mem_self _ a f
      · exact storeAddHere_coll_mem_mono _ sid f f a (storeAdd_coll_mem f p st a h')

theorem storeAdd_cbs_mono (f g : Nat) (c : DoneCB) :
    ∀ (s : Store) (st : LoopState), c ∈ st.cbs g → c ∈ (storeAdd st s f).cbs g
  | .node sid none, st, h => storeAddHere_cbs_mono st sid f g c h
  | .node sid (some p), st, h =>
      storeAddHere_cbs_mono _ sid f g c (storeAdd_cbs_mono f g c p st h)

theorem storeAdd_cbs_mem (f : Nat) :
    ∀ (s : Store) (st : LoopState), ∀ a ∈ s.chainIds,
      DoneCB.onFutureDone a ∈ (storeAdd st s f).cbs f
  | .node sid none, st, a, ha => by
      rw [Store.chainIds] at ha
      simp only [List.mem_singleton] at ha
      subst ha
      exact storeAddHere_cbs_mem_self st a f
  | .node sid (some p), st, a, ha => by
      rw [Store.chainIds] at ha
      rcases List.mem_cons.mp ha with h' | h'
      · subst h'
        exact storeAddHere_cbs_mem_self _ a f
      · exact storeAddHere_cbs_mono _ sid f f _ (storeAdd_cbs_mem f p st a h')

theorem storeAdd_nodup (f : Nat) :
    ∀ (s : Store) (st : LoopState), NodupColl st → NodupColl (storeAdd st s f)
  | .node sid none, st, h => storeAddHere_nodup st sid f h
  | .node sid (some p), st, h =>
      storeAddHere_nodup _ sid f (storeAdd_nodup f p st h)

theorem futureWithTimeout_settled (st : LoopState) (now t f tid : Nat) :
    (futureWithTimeout st now t f tid).settled = st.settled := by
  unfold futureWithTimeout
  split <;> rfl

theorem futureWithTimeout_coll (st : LoopState) (now t f tid : Nat) :
    (futureWithTimeout st now t f tid).coll = st.coll := by
  unfold futureWithTimeout
  split <;> rfl

theorem futureWithTimeout_pending (st : LoopState) (now t f tid : Nat) :
    (futureWithTimeout st now t f tid).pending = st.pending := by
  unfold futureWithTimeout
  split <;> rfl

theorem futureWithTimeout_cbs_mono (st : LoopState) (now t f tid g : Nat) (c : DoneCB)
    (h : c ∈ st.cbs g) : c ∈ (futureWithTimeout st now t f tid).cbs g := by
  unfold futureWithTimeout
  split
  · simp only
    split
    · next hg => subst hg; exact List.mem_append_left _ h
    · exact h
  · exact h

theorem futureWithTimeout_timers_pos (st : LoopState) (now t f tid : Nat) (ht : t ≠ 0) :
    (futureWithTimeout st now t f tid).timers = st.timers ++ [⟨tid, now + t, f⟩] := by
  unfold futureWithTimeout
  rw [if_pos ht]

theorem futureWithTimeout_cbs_self_pos (st : LoopState) (now t f tid : Nat) (ht : t ≠ 0) :
    (futureWithTimeout st now t f tid).cbs f = st.cbs f ++ [.onResult tid] := by
  unfold futureWithTimeout
  rw [if_pos ht]
  simp

theorem createFuture_settled (st : LoopState) (s : Store) (now t f tid : Nat) :
    (createFuture st s now t f tid).settled = st.settled := by
  unfold createFuture
  cases s with
  | node sid parent =>
      cases parent with
      | none =>
          simp only
          rw [storeAdd_settled, futureWithTimeout_settled]
      | some p =>
          simp only
          rw [storeAdd_settled, storeAdd_settled, futureWithTimeout_settled]

theorem createFuture_pending (st : LoopState) (s : Store) (now t f tid : Nat) :
    (createFuture st s now t f tid).pending = st.pending := by
  unfold createFuture
  cases s with
  | node sid parent =>
      cases parent with
      | none =>
          simp only
          rw [storeAdd_pending, futureWithTimeout_pending]
      | some p =>
          simp only
          rw [storeAdd_pending, storeAdd_pending, futureWithTimeout_pending]

theorem createFuture_coll_mem (st : LoopState) (s : Store) (now t f tid : Nat) :
    ∀ a ∈ s.chainIds, f ∈ (createFuture st s now t f tid).coll a := by
  intro a ha
  unfold createFuture
  cases s with
  | node sid parent =>
      cases parent with
      | none =>
          simp only
          exact storeAdd_coll_mem f _ _ a ha
      | some p =>
          simp only
          exact storeAdd_coll_mono f f a p _ (storeAdd_coll_mem f _ _ a ha)

theorem createFuture_cbs_mem (st : LoopState) (s : Store) (now t f tid : Nat) :
    ∀ a ∈ s.chainIds, DoneCB.onFutureDone a ∈ (createFuture st s now t f tid).cbs f := by
  intro a ha
  unfold createFuture
  cases s with
  | node sid parent =>
      cases parent with
      | none =>
          simp only
          exact storeAdd_cbs_mem f _ _ a ha
      | some p =>
          simp only
          exact storeAdd_cbs_mono f f _ p _ (storeAdd_cbs_mem f _ _ a ha)

theorem createFuture_nodup (st : LoopState) (s : Store) (now t f tid : Nat)
    (h : NodupColl st) : NodupColl (createFuture st s now t f tid) := by
  have hfwt : NodupColl (futureWithTimeout st now t f tid) := by
    intro i
    rw [futureWithTimeout_coll]
    exact h i
  unfold createFuture
  cases s with
  | node sid parent =>
      cases parent with
      | none =>
          simp only
          exact storeAdd_nodup f _ _ hfwt
      | some p =>
          simp only
          exact storeAdd_nodup f _ _ (storeAdd_nodup f _ _ hfwt)

/-!
## Claim theorems
-/

/-- C1: after `R.reject_all(e)` completes, together with the loop turn it
schedules, every future that was a member of `R` immediately before the
call is settled — with `e` if it was pending, untouched if it was already
settled — and `R`'s member set is empty (already on return from
`reject_all` itself). -/
theorem futureStore_rejectAll_rejects_members (st : LoopState) (R : Store) (e : PyErr)
    (hpend : st.pending = []) :
    (rejectAll st R e).coll R.sid = [] ∧
    (runPending (rejectAll st R e)).coll R.sid = [] ∧
    (∀ fid ∈ st.coll R.sid,
      (st.settled fid = none →
        (runPending (rejectAll st R e)).settled fid = some (.error e)) ∧
      (∀ s, st.settled fid = some s →
        (runPending (rejectAll st R e)).settled fid = some s)) := by
  have hcoll : (rejectAll st R e).coll R.sid = [] := rejectAll_coll_self st R e
  have hpend2 : (rejectAll st R e).pending =
      (st.coll R.sid).map (fun f => ⟨f, e⟩) := by
    rw [rejectAll_pending, hpend, List.nil_append]
  have hrp : runPending (rejectAll st R e) =
      runPendingLoop { rejectAll st R e with pending := [] }
        ((st.coll R.sid).map (fun f => ⟨f, e⟩)) := by
    rw [runPending, hpend2]
  have hbase_settled : ({ rejectAll st R e with pending := [] } : LoopState).settled
      = st.settled := rejectAll_settled st R e
  have hbase_coll : ({ rejectAll st R e with pending := [] } : LoopState).coll R.sid
      = [] := hcoll
  refine ⟨hcoll, ?_, ?_⟩
  · rw [hrp]
    exact runPendingLoop_coll_empty R.sid _ _ hbase_coll
  · intro fid hmem
    constructor
    · intro hnone
      rw [hrp]
      apply runPendingLoop_settles fid e (st.coll R.sid) _ hmem
      rw [hbase_settled]; exact hnone
    · intro s hsome
      rw [hrp]
      apply runPendingLoop_settled_stable fid s
      rw [hbase_settled]; exact hsome

theorem futureStore_rejectAll_rejects_members_witness :
    (rejectAll demoSt1 demoStoreR .channelClosed).coll demoStoreR.sid = [] ∧
    (runPending (rejectAll demoSt1 demoStoreR .channelClosed)).coll demoStoreR.sid = [] ∧
    (runPending (rejectAll demoSt1 demoStoreR .channelClosed)).settled 1 =
      some (.error .channelClosed) ∧
    (runPending (rejectAll demoSt1 demoStoreR .channelClosed)).settled 2 =
      some (.result (.obj 5)) := by
  obtain ⟨h1, h2, h3⟩ :=
    futureStore_rejectAll_rejects_members demoSt1 demoStoreR .channelClosed rfl
  refine ⟨h1, h2, ?_, ?_⟩
  · exact (h3 1 (by decide)).1 rfl
  · exact (h3 2 (by decide)).2 _ rfl

/-- C6: once a handle is settled, a second settlement attempt by either
path — the `reject_all` sweep's `_reject_future` or the timeout's
`on_timeout` — leaves the state entirely unchanged (a silent no-op that
cannot raise, since both paths are guarded by `done()`), in whichever
order the two race. -/
theorem settle_twice_silent_noop (st : LoopState) (fid : Nat) (e : PyErr) :
    (∀ s, st.settled fid = some s →
      rejectFuture st fid e = st ∧ onTimeout st fid = st) ∧
    (st.settled fid = none →
      onTimeout (rejectFuture st fid e) fid = rejectFuture st fid e ∧
      rejectFuture (onTimeout st fid) fid e = onTimeout st fid) := by
  constructor
  · intro s h
    exact ⟨rejectFuture_of_done st fid e s h, onTimeout_of_done st fid s h⟩
  · intro h
    constructor
    · apply onTimeout_of_done _ fid (.error e)
      rw [rejectFuture_of_pending st fid e h]
      exact setSettlement_settled_self ..
    · apply rejectFuture_of_done _ fid e (.error .timeoutError)
      rw [onTimeout_of_pending st fid h]
      exact setSettlement_settled_self ..

theorem settle_twice_silent_noop_witness :
    (rejectFuture demoSt2 0 .channelClosed = demoSt2 ∧
      onTimeout demoSt2 0 = demoSt2) ∧
    (onTimeout (rejectFuture demoSt2 1 .channelClosed) 1 =
        rejectFuture demoSt2 1 .channelClosed ∧
      rejectFuture (onTimeout demoSt2 1) 1 .channelClosed = onTimeout demoSt2 1) :=
  ⟨(settle_twice_silent_noop demoSt2 0 .channelClosed).1 _ rfl,
   (settle_twice_silent_noop demoSt2 1 .channelClosed).2 rfl⟩

/-- C5: the adapted handler discards the raw source argument, invokes the
stored handler on the stored proxy and the remaining arguments, and
delivers the handler's outcome — value or raised error — unchanged
(`PyFunc.apply` carries both through `Except`); the number of suspensions
equals the handler's own, in particular zero (synchronous completion) for
a plain handler. -/
theorem callbackWrapper_adapts (p : Nat) (cb : PyFunc) (raw raw' : Nat)
    (args : List Nat) :
    (CallbackWrapper.make p cb).call raw args = (cb.steps, cb.apply p args) ∧
    (CallbackWrapper.make p cb).call raw args =
      (CallbackWrapper.make p cb).call raw' args ∧
    (∀ f, cb = .plain f → ((CallbackWrapper.make p cb).call raw args).1 = 0) := by
  cases cb <;>
    simp [CallbackWrapper.make, CallbackWrapper.call, ensure_coroutine,
      PyFunc.steps, PyFunc.apply]

theorem callbackWrapper_adapts_witness :
    (CallbackWrapper.make 3 demoHandler).call 99 [10, 20] = (0, .ok 5) ∧
    ((CallbackWrapper.make 3 demoHandler).call 99 [10, 20]).1 = 0 :=
  ⟨((callbackWrapper_adapts 3 demoHandler 99 98 [10, 20]).1).trans rfl,
   (callbackWrapper_adapts 3 demoHandler 99 98 [10, 20]).2.2 _ rfl⟩

/-- C7: a handle created by `future_with_timeout` with a truthy timeout
`t` and never otherwise settled stays pending at every clock time before
`now + t` and is settled with the `Timeout` error once the clock reaches
`now + t`; and settling the handle by any means removes the armed
`call_later` handle, after which no clock advance changes the delivered
settlement. -/
theorem future_timeout_arms_and_disarms (st : LoopState) (now t fid tid : Nat)
    (ht : t ≠ 0) (hfid : st.settled fid = none) (hcbs : st.cbs fid = [])
    (htimers : st.timers = []) :
    (∀ u, u < now + t →
      (advanceTo (futureWithTimeout st now t fid tid) u).settled fid = none) ∧
    (∀ u, now + t ≤ u →
      (advanceTo (futureWithTimeout st now t fid tid) u).settled fid =
        some (.error .timeoutError)) ∧
    (∀ s, (setSettlement (futureWithTimeout st now t fid tid) fid s).timers = [] ∧
      (∀ u, (advanceTo (setSettlement (futureWithTimeout st now t fid tid) fid s) u).settled
        fid = some s)) := by
  have htm : (futureWithTimeout st now t fid tid).timers = [⟨tid, now + t, fid⟩] := by
    rw [futureWithTimeout_timers_pos st now t fid tid ht, htimers, List.nil_append]
  have hstl : (futureWithTimeout st now t fid tid).settled fid = none := by
    rw [futureWithTimeout_settled]; exact hfid
  have hcb : (futureWithTimeout st now t fid tid).cbs fid = [.onResult tid] := by
    rw [futureWithTimeout_cbs_self_pos st now t fid tid ht, hcbs, List.nil_append]
  refine ⟨?_, ?_, ?_⟩
  · intro u hu
    have hdue : timersDue (futureWithTimeout st now t fid tid) u = [] := by
      rw [timersDue, htm]
      simp [List.filter, Nat.not_le.mpr hu]
    rw [advanceTo, hdue, fireTimers, hstl]
  · intro u hu
    have hdue : timersDue (futureWithTimeout st now t fid tid) u = [tid] := by
      rw [timersDue, htm]
      simp [List.filter, hu]
    rw [advanceTo, hdue, fireTimers, fireTimers]
    rw [fireTimer, htm]
    simp only [List.find?, decide_True]
    rw [onTimeout_of_pending]
    · exact setSettlement_settled_self ..
    · exact hstl
  · intro s
    have hts : (setSettlement (futureWithTimeout st now t fid tid) fid s).timers = [] := by
      rw [setSettlement, hcb, runDoneCBs, runDoneCBs, runDoneCB]
      simp [htm]
    have hss : (setSettlement (futureWithTimeout st now t fid tid) fid s).settled fid
        = some s := setSettlement_settled_self ..
    refine ⟨hts, ?_⟩
    intro u
    have hdue : timersDue (setSettlement (futureWithTimeout st now t fid tid) fid s) u
        = [] := by
      rw [timersDue, hts]
      rfl
    rw [advanceTo, hdue, fireTimers, hss]

theorem future_timeout_arms_and_disarms_witness :
    (advanceTo (futureWithTimeout emptyLoop 0 4 0 1) 3).settled 0 = none ∧
    (advanceTo (futureWithTimeout emptyLoop 0 4 0 1) 4).settled 0 =
      some (.error .timeoutError) ∧
    (setSettlement (futureWithTimeout emptyLoop 0 4 0 1) 0 (.result (.obj 9))).timers
      = [] ∧
    (advanceTo (setSettlement (futureWithTimeout emptyLoop 0 4 0 1) 0
      (.result (.obj 9))) 10).settled 0 = some (.result (.obj 9)) := by
  obtain ⟨h1, h2, h3⟩ :=
    future_timeout_arms_and_disarms emptyLoop 0 4 0 1 (by decide) rfl rfl rfl
  exact ⟨h1 3 (by decide), h2 4 (by decide), (h3 (.result (.obj 9))).1,
    (h3 (.result (.obj 9))).2 10⟩

theorem Store.sid_mem_chainIds_of_mem_chain :
    ∀ (s A : Store), A ∈ s.chain → A.sid ∈ s.chainIds
  | .node sid none, A, hA => by
      rw [Store.chain] at hA
      simp only [List.mem_singleton] at hA
      subst hA
      rw [Store.chainIds]
      simp [Store.sid]
  | .node sid (some p), A, hA => by
      rw [Store.chain] at hA
      rw [Store.chainIds]
      rcases List.mem_cons.mp hA with h' | h'
      · subst h'
        simp [Store.sid]
      · exact List.mem_cons_of_mem _ (Store.sid_mem_chainIds_of_mem_chain p A h')

/-- C2: a handle created through a child registry with `create_future` is
a member of the child and of every registry up the parent chain; hence
`reject_all` on any store of that chain (with the loop turn it schedules)
settles the still-pending handle with the given error; and settling the
handle — by any means — removes it from the child and from every ancestor
registry automatically. -/
theorem child_store_visible_to_ancestors
    (st : LoopState) (child A : Store) (now timeout fid tid : Nat) (e : PyErr)
    (hA : A ∈ child.chain)
    (hfresh : st.settled fid = none)
    (hpend : st.pending = [])
    (hnd : NodupColl st) :
    (∀ a ∈ child.chainIds,
      fid ∈ (createFuture st child now timeout fid tid).coll a) ∧
    (runPending (rejectAll (createFuture st child now timeout fid tid) A e)).settled fid
      = some (.error e) ∧
    (∀ s, ∀ a ∈ child.chainIds,
      fid ∉ (setSettlement (createFuture st child now timeout fid tid) fid s).coll a) := by
  have hmemA : fid ∈ (createFuture st child now timeout fid tid).coll A.sid :=
    createFuture_coll_mem st child now timeout fid tid A.sid
      (Store.sid_mem_chainIds_of_mem_chain child A hA)
  have hstl : (createFuture st child now timeout fid tid).settled fid = none := by
    rw [createFuture_settled]; exact hfresh
  refine ⟨createFuture_coll_mem st child now timeout fid tid, ?_, ?_⟩
  · have hpend2 : (rejectAll (createFuture st child now timeout fid tid) A e).pending =
        ((createFuture st child now timeout fid tid).coll A.sid).map (fun f => ⟨f, e⟩) := by
      rw [rejectAll_pending, createFuture_pending, hpend, List.nil_append]
    rw [runPending, hpend2]
    apply runPendingLoop_settles fid e _ _ hmemA
    have : ({ rejectAll (createFuture st child now timeout fid tid) A e with
        pending := [] } : LoopState).settled = (createFuture st child now timeout fid tid).settled :=
      rejectAll_settled ..
    rw [this]
    exact hstl
  · intro s a ha
    exact setSettlement_kill _ fid a s
      (createFuture_nodup st child now timeout fid tid hnd)
      (createFuture_cbs_mem st child now timeout fid tid a ha)

theorem child_store_visible_to_ancestors_witness :
    (5 ∈ (createFuture emptyLoop demoChild 0 0 5 0).coll 1 ∧
     5 ∈ (createFuture emptyLoop demoChild 0 0 5 0).coll 0) ∧
    (runPending (rejectAll (createFuture emptyLoop demoChild 0 0 5 0) demoRoot
      .channelClosed)).settled 5 = some (.error .channelClosed) ∧
    (5 ∉ (setSettlement (createFuture emptyLoop demoChild 0 0 5 0) 5
        (.result (.obj 1))).coll 1 ∧
     5 ∉ (setSettlement (createFuture emptyLoop demoChild 0 0 5 0) 5
        (.result (.obj 1))).coll 0) := by
  obtain ⟨h1, h2, h3⟩ :=
    child_store_visible_to_ancestors emptyLoop demoChild demoRoot 0 0 5 0
      .channelClosed (List.Mem.tail _ (List.Mem.head _)) rfl rfl
      (fun _ => List.nodup_nil)
  refine ⟨⟨h1 1 (by decide), h1 0 (by decide)⟩, h2, ?_, ?_⟩
  · exact h3 (.result (.obj 1)) 1 (by decide)
  · exact h3 (.result (.obj 1)) 0 (by decide)

/-- C3: the loss handler.  (1) With the terminal handle already settled it
is a no-op.  (2) For a client-initiated close with `REPLY_SUCCESS` it
resolves the terminal handle successfully with the reason, settles
nothing else and schedules no rejection.  (3) For any other reason, after
the loop turn the sweep schedules, every member of the connection
registry that was pending — the terminal handle among them, and with it
every channel sub-registry member held in the connection registry — is
settled with that same reason, while already-settled members are left
untouched. -/
theorem connection_lost_handler_spec (w : ConnWorld) (cf cl : Nat) (reason : PyErr)
    (hcl : w.conn.closing = some cl) :
    (∀ s, w.loop.settled cl = some s → onConnectionLost w cf reason = some w) ∧
    (w.loop.settled cl = none → isClientSuccess reason = true →
      ∃ w', onConnectionLost w cf reason = some w' ∧
        w'.loop.settled cl = some (.result (.exc reason)) ∧
        (∀ f, f ≠ cl → w'.loop.settled f = w.loop.settled f) ∧
        w'.loop.pending = w.loop.pending) ∧
    (w.loop.settled cl = none → isClientSuccess reason = false →
      w.loop.pending = [] → cl ∈ w.loop.coll w.conn.root.sid →
      ∃ w', onConnectionLost w cf reason = some w' ∧
        (∀ fid ∈ w.loop.coll w.conn.root.sid,
          (w.loop.settled fid = none →
            (runPending w'.loop).settled fid = some (.error reason)) ∧
          (∀ s, w.loop.settled fid = some s →
            (runPending w'.loop).settled fid = some s)) ∧
        (runPending w'.loop).settled cl = some (.error reason)) := by
  refine ⟨?_, ?_, ?_⟩
  · intro s hs
    have hcd : closingDone w = true := by
      simp [closingDone, hcl, LoopState.done, hs]
    simp [onConnectionLost, hcd]
  · intro hnone hcs
    have hcd : closingDone w = false := by
      simp [closingDone, hcl, LoopState.done, hnone]
    refine ⟨{ w with loop := setSettlement w.loop cl (.result (.exc reason)) }, ?_, ?_, ?_, ?_⟩
    · simp [onConnectionLost, hcd, hcs, hcl]
    · exact setSettlement_settled_self ..
    · intro f hf
      simp only
      rw [setSettlement_settled, if_neg hf]
    · exact setSettlement_pending ..
  · intro hnone hcs hpend hclmem
    have hcd : closingDone w = false := by
      simp [closingDone, hcl, LoopState.done, hnone]
    set lp := rejectAll w.loop w.conn.root reason with hlp
    set lp2 := if lp.done cf then lp else setSettlement lp cf (.error reason) with hlp2
    have hout : onConnectionLost w cf reason = some { w with loop := lp2 } := by
      simp only [onConnectionLost, hcd, Bool.false_eq_true, if_false, hcs, hlp2, hlp]
    have hlp_settled : lp.settled = w.loop.settled := rejectAll_settled ..
    have hlp_pending : lp.pending = (w.loop.coll w.conn.root.sid).map
        (fun f => ⟨f, reason⟩) := by
      rw [hlp, rejectAll_pending, hpend, List.nil_append]
    have hlp2_pending : lp2.pending = (w.loop.coll w.conn.root.sid).map
        (fun f => ⟨f, reason⟩) := by
      rw [hlp2]
      split
      · exact hlp_pending
      · rw [setSettlement_pending]; exact hlp_pending
    have hmain : ∀ fid ∈ w.loop.coll w.conn.root.sid,
        (w.loop.settled fid = none →
          (runPending lp2).settled fid = some (.error reason)) ∧
        (∀ s, w.loop.settled fid = some s →
          (runPending lp2).settled fid = some s) := by
      intro fid hmem
      constructor
      · intro hn
        by_cases hcf : lp2.settled fid = some (.error reason)
        · rw [runPending, hlp2_pending]
          exact runPendingLoop_settled_stable fid _ _ _ hcf
        · have hfidn : lp2.settled fid = none := by
            rw [hlp2]
            split
            · rw [hlp_settled]; exact hn
            · rw [setSettlement_settled]
              split
              · next hfe =>
                  exfalso
                  apply hcf
                  rw [hlp2]
                  split
                  · next hdone =>
                      exfalso
                      subst hfe
                      rw [LoopState.done, hlp_settled, hn] at hdone
                      simp at hdone
                  · rw [setSettlement_settled, if_pos hfe]
              · rw [hlp_settled]; exact hn
          rw [runPending, hlp2_pending]
          exact runPendingLoop_settles fid reason _ _ hmem hfidn
      · intro s hs
        have hlps : lp2.settled fid = some s := by
          rw [hlp2]
          split
          · rw [hlp_settled]; exact hs
          · rw [setSettlement_settled]
            split
            · next hfe =>
                subst hfe
                next hdone =>
                  exfalso
                  rw [LoopState.done, hlp_settled, hs] at hdone
                  simp at hdone
            · rw [hlp_settled]; exact hs
        rw [runPending, hlp2_pending]
        exact runPendingLoop_settled_stable fid s _ _ hlps
    exact ⟨{ w with loop := lp2 }, hout, hmain, (hmain cl hclmem).1 hnone⟩

theorem connection_lost_handler_spec_witness :
    onConnectionLost demoW3a 9 (.generic 3) = some demoW3a ∧
    (∃ w', onConnectionLost demoW3 9 (.connectionClosedByClient 200) = some w' ∧
      w'.loop.settled 7 = some (.result (.exc (.connectionClosedByClient 200))) ∧
      (∀ f, f ≠ 7 → w'.loop.settled f = demoW3.loop.settled f) ∧
      w'.loop.pending = demoW3.loop.pending) ∧
    (∃ w', onConnectionLost demoW3 9 (.generic 3) = some w' ∧
      (∀ fid ∈ demoW3.loop.coll demoW3.conn.root.sid,
        (demoW3.loop.settled fid = none →
          (runPending w'.loop).settled fid = some (.error (.generic 3))) ∧
        (∀ s, demoW3.loop.settled fid = some s →
          (runPending w'.loop).settled fid = some s)) ∧
      (runPending w'.loop).settled 7 = some (.error (.generic 3))) :=
  ⟨(connection_lost_handler_spec demoW3a 9 7 (.generic 3) rfl).1 _ rfl,
   (connection_lost_handler_spec demoW3 9 7 (.connectionClosedByClient 200) rfl).2.1
     rfl rfl,
   (connection_lost_handler_spec demoW3 9 7 (.generic 3) rfl).2.2 rfl rfl rfl
     (by decide)⟩

theorem mapLookup_mapInsert_self (m : List (Nat × Channel)) (k : Nat) (v : Channel) :
    mapLookup (mapInsert m k v) k = some v := by
  simp [mapInsert, mapLookup]

theorem mapLookup_filter_self_none (k : Nat) :
    ∀ (m : List (Nat × Channel)),
      mapLookup (m.filter (fun p => p.1 ≠ k)) k = none
  | [] => rfl
  | (k', v) :: rest => by
      by_cases hk : k' = k
      · subst hk
        simp only [List.filter]
        rw [show (decide (k' ≠ k')) = false by simp]
        exact mapLookup_filter_self_none k' rest
      · simp only [List.filter]
        rw [show (decide (k' ≠ k)) = true by simp [hk]]
        rw [mapLookup, if_neg hk]
        exact mapLookup_filter_self_none k rest

theorem mapPop_of_lookup (m : List (Nat × Channel)) (k : Nat) (v : Channel)
    (h : mapLookup m k = some v) :
    mapPop m k = some (v, m.filter (fun p => p.1 ≠ k)) := by
  simp [mapPop, h]

/-- C4: a successful `Connection.channel()` call returns a `Channel`
wrapping the engine-granted channel number and a fresh child of the
connection registry, records it in the channel map under that number and
binds the raw channel back to it (cookie); afterwards `_channel_cleanup`
pops that map entry and rejects the channel's sub-registry with
`ChannelClosed` — settling, after the loop turn, any operation that was
pending in the sub-registry. -/
theorem channel_open_registers_and_cleanup
    (w : ConnWorld) (chNum fidOpen childSid fid2 tid2 : Nat)
    (hopen : isClosed w = false)
    (hpend : w.loop.pending = [])
    (hfid2 : w.loop.settled fid2 = none)
    (hne : fid2 ≠ fidOpen) :
    (channelOp w chNum fidOpen childSid).2 =
      .ok ⟨chNum, .node childSid (some w.conn.root)⟩ ∧
    mapLookup (channelOp w chNum fidOpen childSid).1.conn.channels chNum =
      some ⟨chNum, .node childSid (some w.conn.root)⟩ ∧
    mapLookup (channelOp w chNum fidOpen childSid).1.conn.cookies chNum =
      some ⟨chNum, .node childSid (some w.conn.root)⟩ ∧
    (∃ w3, channelCleanup
        { conn := (channelOp w chNum fidOpen childSid).1.conn,
          loop := createFuture (channelOp w chNum fidOpen childSid).1.loop
            (.node childSid (some w.conn.root)) 0 0 fid2 tid2 } chNum = some w3 ∧
      mapLookup w3.conn.channels chNum = none ∧
      (runPending w3.loop).settled fid2 = some (.error .channelClosed)) := by
  have hens : ensureConnected w = .ok () := by
    simp [ensureConnected, hopen]
  have hbase_settled : ((setResult (createFuture w.loop w.conn.root 0 0 fidOpen 0)
      fidOpen (.obj chNum)).getD
      (createFuture w.loop w.conn.root 0 0 fidOpen 0)).settled fid2 = none := by
    rw [setResult]
    split
    · rw [Option.getD_none, createFuture_settled]; exact hfid2
    · rw [Option.getD_some, setSettlement_settled, if_neg hne, createFuture_settled]
      exact hfid2
  have hbase_pending : ((setResult (createFuture w.loop w.conn.root 0 0 fidOpen 0)
      fidOpen (.obj chNum)).getD
      (createFuture w.loop w.conn.root 0 0 fidOpen 0)).pending = [] := by
    rw [setResult]
    split
    · rw [Option.getD_none, createFuture_pending]; exact hpend
    · rw [Option.getD_some, setSettlement_pending, createFuture_pending]; exact hpend
  have hsett : (channelOp w chNum fidOpen childSid).1.loop.settled fid2 = none := by
    simp only [channelOp, hens]
    split
    · exact hbase_settled
    · exact hbase_settled
  have hpnd1 : (channelOp w chNum fidOpen childSid).1.loop.pending = [] := by
    simp only [channelOp, hens]
    split
    · exact hbase_pending
    · exact hbase_pending
  have hchannels : (channelOp w chNum fidOpen childSid).1.conn.channels =
      mapInsert w.conn.channels chNum ⟨chNum, .node childSid (some w.conn.root)⟩ := by
    simp only [channelOp, hens, createChild]
  have hcookies : (channelOp w chNum fidOpen childSid).1.conn.cookies =
      mapInsert w.conn.cookies chNum ⟨chNum, .node childSid (some w.conn.root)⟩ := by
    simp only [channelOp, hens, createChild]
  refine ⟨?_, ?_, ?_, ?_⟩
  · simp only [channelOp, hens, createChild]
  · rw [hchannels]; exact mapLookup_mapInsert_self ..
  · rw [hcookies]; exact mapLookup_mapInsert_self ..
  · have hwl2_settled :
        (createFuture (channelOp w chNum fidOpen childSid).1.loop
          (.node childSid (some w.conn.root)) 0 0 fid2 tid2).settled fid2 = none := by
      rw [createFuture_settled]; exact hsett
    have hwl2_pending :
        (createFuture (channelOp w chNum fidOpen childSid).1.loop
          (.node childSid (some w.conn.root)) 0 0 fid2 tid2).pending = [] := by
      rw [createFuture_pending]; exact hpnd1
    have hwl2_mem : fid2 ∈ (createFuture (channelOp w chNum fidOpen childSid).1.loop
        (.node childSid (some w.conn.root)) 0 0 fid2 tid2).coll childSid := by
      apply createFuture_coll_mem
      rw [Store.chainIds]
      exact List.mem_cons_self ..
    rw [channelCleanup]
    rw [show mapPop
        ({
          conn := (channelOp w chNum fidOpen childSid).1.conn,
          loop := createFuture (channelOp w chNum fidOpen childSid).1.loop
            (.node childSid (some w.conn.root)) 0 0 fid2 tid2 } : ConnWorld).conn.channels
          chNum = some (⟨chNum, .node childSid (some w.conn.root)⟩,
            ((channelOp w chNum fidOpen childSid).1.conn.channels).filter
              (fun p => p.1 ≠ chNum)) from by
      apply mapPop_of_lookup
      rw [hchannels]
      exact mapLookup_mapInsert_self ..]
    refine ⟨_, rfl, mapLookup_filter_self_none chNum _, ?_⟩
    have hpend3 : (rejectAll (createFuture (channelOp w chNum fidOpen childSid).1.loop
        (.node childSid (some w.conn.root)) 0 0 fid2 tid2)
        (Store.node childSid (some w.conn.root)) .channelClosed).pending =
        ((createFuture (channelOp w chNum fidOpen childSid).1.loop
          (.node childSid (some w.conn.root)) 0 0 fid2 tid2).coll childSid).map
          (fun f => ⟨f, .channelClosed⟩) := by
      rw [rejectAll_pending, hwl2_pending, List.nil_append]
      rfl
    rw [runPending, hpend3]
    apply runPendingLoop_settles fid2 .channelClosed _ _ hwl2_mem
    have hra : (rejectAll (createFuture (channelOp w chNum fidOpen childSid).1.loop
        (.node childSid (some w.conn.root)) 0 0 fid2 tid2)
        (Store.node childSid (some w.conn.root)) .channelClosed).settled =
        (createFuture (channelOp w chNum fidOpen childSid).1.loop
          (.node childSid (some w.conn.root)) 0 0 fid2 tid2).settled :=
      rejectAll_settled ..
    rw [show ({ rejectAll (createFuture (channelOp w chNum fidOpen childSid).1.loop
        (.node childSid (some w.conn.root)) 0 0 fid2 tid2)
        (Store.node childSid (some w.conn.root)) .channelClosed with
        pending := [] } : LoopState).settled fid2 =
        (createFuture (channelOp w chNum fidOpen childSid).1.loop
          (.node childSid (some w.conn.root)) 0 0 fid2 tid2).settled fid2 from
      congrFun hra fid2]
    exact hwl2_settled

theorem channel_open_registers_and_cleanup_witness :
    (channelOp demoW4 2 3 4).2 = .ok ⟨2, .node 4 (some demoW4.conn.root)⟩ ∧
    mapLookup (channelOp demoW4 2 3 4).1.conn.channels 2 =
      some ⟨2, .node 4 (some demoW4.conn.root)⟩ ∧
    mapLookup (channelOp demoW4 2 3 4).1.conn.cookies 2 =
      some ⟨2, .node 4 (some demoW4.conn.root)⟩ ∧
    (∃ w3, channelCleanup
        { conn := (channelOp demoW4 2 3 4).1.conn,
          loop := createFuture (channelOp demoW4 2 3 4).1.loop
            (.node 4 (some demoW4.conn.root)) 0 0 5 0 } 2 = some w3 ∧
      mapLookup w3.conn.channels 2 = none ∧
      (runPending w3.loop).settled 5 = some (.error .channelClosed)) :=
  channel_open_registers_and_cleanup demoW4 2 3 4 5 0 rfl rfl rfl (by decide)

/-- C9: `Connection.connect()` is atomic on failure.  When the fail-fast
check passes and the engine settles the open attempt with an error
(open-error or close-during-open, not a client-success close) before any
open-success, the call returns that error while the transport slot still
holds `None`, so `is_closed` still reports true. -/
theorem connect_atomic_on_failure (w : ConnWorld) (cfid tid : Nat) (reason : PyErr)
    (hnc : closingDone w = false)
    (hncs : isClientSuccess reason = false)
    (hcf : w.loop.settled cfid = none) :
    ∃ w2, connectOp w cfid tid (.error reason) = (w2, some (.error reason)) ∧
      w2.conn.connection = none ∧ isClosed w2 = true := by
  have hcd1 : closingDone
      { conn := { w.conn with
                  connection := none,
                  engineCalls := w.conn.engineCalls + 1 },
        loop := w.loop } = false := hnc
  have hdone : (rejectAll w.loop w.conn.root reason).done cfid = false := by
    rw [LoopState.done, rejectAll_settled, hcf]
    rfl
  have hset : (setSettlement (rejectAll w.loop w.conn.root reason) cfid
      (.error reason)).settled cfid = some (.error reason) :=
    setSettlement_settled_self ..
  simp only [connectOp, hnc, Bool.false_eq_true, if_false, onConnectionLost, hcd1,
    hncs, hdone, hset]
  exact ⟨_, rfl, rfl, rfl⟩

theorem connect_atomic_on_failure_witness :
    ∃ w2, connectOp demoW9 0 1 (.error (.connectionClosed 320)) =
        (w2, some (.error (.connectionClosed 320))) ∧
      w2.conn.connection = none ∧ isClosed w2 = true :=
  connect_atomic_on_failure demoW9 0 1 (.connectionClosed 320) rfl rfl rfl

/-- C10: on a freshly constructed `Connection` — `connect()` never run —
the transport reference is absent, so `is_closed` is true,
`ensure_connected` raises `RuntimeError`, and `channel()` fails with that
same error immediately, leaving the connection untouched and making no
call into the protocol engine. -/
theorem fresh_connection_channel_fails (rootSid chNum fidOpen childSid : Nat) :
    isClosed (initConnection rootSid) = true ∧
    ensureConnected (initConnection rootSid) =
      .error (.runtimeError "Connection closed") ∧
    channelOp (initConnection rootSid) chNum fidOpen childSid =
      (initConnection rootSid, .error (.runtimeError "Connection closed")) ∧
    (channelOp (initConnection rootSid) chNum fidOpen childSid).1.conn.engineCalls
      = 0 :=
  ⟨rfl, rfl, rfl, rfl⟩

theorem sslLoop_ok (query : String) (opts : List (String × String)) :
    ∀ ks : List String, (∀ k ∈ ks, strContains query k = false) →
      sslLoop query opts ks = .ok opts
  | [], _ => rfl
  | k :: ks, h => by
      rw [sslLoop]
      rw [h k (List.mem_cons_self ..)]
      simp only [Bool.false_eq_true, if_false]
      exact sslLoop_ok query opts ks (fun k' hk' => h k' (List.mem_cons_of_mem _ hk'))

/-- C8 counterexample: the URL's query carries the SSL parameter
`server_hostname`, which is not in the allow-list; `connect()`'s merge
leaves `ssl_options` empty, so the parameter is *not* passed through
verbatim, refuting the claim at this input. -/
theorem connect_ssl_passthrough_cex :
    strContains demoUrl.query "server_hostname" = true ∧
    mergeConnectParams (some demoUrl) "localhost" 5672 "guest" "guest" "/" [] =
      .ok { host := "10.0.0.1", port := 5672, login := "user",
            password := "secret", virtualhost := "vh", ssl_options := [] } ∧
    (∀ v, ("server_hostname", v) ∈
      ({ host := "10.0.0.1", port := 5672, login := "user", password := "secret",
         virtualhost := "vh", ssl_options := [] } : ConnectParams).ssl_options →
      False) := by
  refine ⟨by decide, rfl, ?_⟩
  intro v hv
  simp at hv

/-- C8 (amended): with a URL given, each non-falsy URL component
(hostname, port, username, password, and the virtual host taken from a
path longer than `/`) overrides the corresponding discrete field; the SSL
handling consults only the fixed allow-list, so when no allow-listed key
occurs in the query string the given `ssl_options` pass through unchanged
and, in particular, SSL query parameters outside the list are never added. -/
theorem connect_url_overrides_discrete_fields
    (u : UrlParts) (host : String) (port : Nat) (login password vhost : String)
    (opts : List (String × String))
    (hq : ∀ k ∈ sslKeys, strContains u.query k = false) :
    ∃ r, mergeConnectParams (some u) host port login password vhost opts = .ok r ∧
      (∀ h, u.hostname = some h → h ≠ "" → r.host = h) ∧
      (∀ p, u.port = some p → p ≠ 0 → r.port = p) ∧
      (∀ l, u.username = some l → l ≠ "" → r.login = l) ∧
      (∀ pw, u.password = some pw → pw ≠ "" → r.password = pw) ∧
      (u.path.length > 1 → r.virtualhost = u.path.drop 1) ∧
      r.ssl_options = opts := by
  have hssl : sslLoop u.query opts sslKeys = .ok opts := sslLoop_ok u.query opts sslKeys hq
  refine ⟨⟨pyOrStr u.hostname host, pyOrNat u.port port, pyOrStr u.username login,
    pyOrStr u.password password,
    if u.path.length > 1 then u.path.drop 1 else vhost, opts⟩, ?_, ?_, ?_, ?_, ?_, ?_, rfl⟩
  · simp only [mergeConnectParams, hssl]
  · intro h hh hne
    simp only [hh, pyOrStr, if_neg hne]
  · intro p hp hne
    simp only [hp, pyOrNat, if_neg hne]
  · intro l hl hne
    simp only [hl, pyOrStr, if_neg hne]
  · intro pw hpw hne
    simp only [hpw, pyOrStr, if_neg hne]
  · intro hp
    simp only [if_pos hp]

theorem connect_url_overrides_discrete_fields_witness :
    ∃ r, mergeConnectParams (some demoUrl) "localhost" 5672 "guest" "guest" "/"
        [("keyfile", "key.pem")] = .ok r ∧
      (∀ h, demoUrl.hostname = some h → h ≠ "" → r.host = h) ∧
      (∀ p, demoUrl.port = some p → p ≠ 0 → r.port = p) ∧
      (∀ l, demoUrl.username = some l → l ≠ "" → r.login = l) ∧
      (∀ pw, demoUrl.password = some pw → pw ≠ "" → r.password = pw) ∧
      (demoUrl.path.length > 1 → r.virtualhost = demoUrl.path.drop 1) ∧
      r.ssl_options = [("keyfile", "key.pem")] :=
  connect_url_overrides_discrete_fields demoUrl "localhost" 5672 "guest" "guest" "/"
    [("keyfile", "key.pem")] (by decide)
